import Mathlib

/-!
Verification of the Streaming Index (src/app.py): a RocksDB-backed point
index plus a DuckDB analytical table, fed by a Kafka ingestion loop and
read through query endpoints.

The embedding follows the source:
* `SensorEvent` models the decoded JSON payload.  The spec calls the
  event's time field `recordedAt`; in the JSON it is the `"timestamp"`
  key read by `value.get("timestamp", "unknown")` — we use the spec's
  name `recordedAt` for that field.  Numeric columns are declared FLOAT
  in the source; we model their values with `Rat`, which is exact on the
  inputs considered.
* the Point Index Store (RocksDB) is a key-sorted association list, with
  `dbPut` (insert-or-overwrite), `dbGet` (point lookup) and iteration in
  key order, matching RocksDB's byte-lexicographic scan.
* the Analytical Store (DuckDB) is a list of rows for the `sensor_data`
  table.  The source declares `sensor_id UUID PRIMARY KEY`, and DuckDB
  enforces primary keys: an INSERT whose `sensor_id` already appears
  raises a constraint error.  `insertRow` returns `Except` accordingly.
* string comparison (`record["timestamp"] >= timestamp_threshold` in
  `query_events`) is Python's code-point lexicographic order, embedded
  as `pyLe` on the code points.
-/

/-- Python's `<=` on strings: lexicographic comparison of code points. -/
def strLeAux : List Char → List Char → Bool
  | [], _ => true
  | _ :: _, [] => false
  | a :: as, b :: bs =>
    if a.toNat < b.toNat then true
    else if b.toNat < a.toNat then false
    else strLeAux as bs

def pyLe (s t : String) : Bool := strLeAux s.data t.data

/-- Python's `<` on strings (used only for the key order of the RocksDB scan). -/
def strLtAux : List Char → List Char → Bool
  | [], [] => false
  | [], _ :: _ => true
  | _ :: _, [] => false
  | a :: as, b :: bs =>
    if a.toNat < b.toNat then true
    else if b.toNat < a.toNat then false
    else strLtAux as bs

def pyLt (s t : String) : Bool := strLtAux s.data t.data

/-- A decoded sensor event (the JSON object consumed from Kafka).
`recordedAt` is the `"timestamp"` JSON key; the other fields are the
optional numeric readings.  Absent keys are `none` (`value.get` returns
`None`). -/
structure SensorEvent where
  temperature : Option Rat
  humidity : Option Rat
  pressure : Option Rat
  recordedAt : Option String
deriving DecidableEq, Repr

/-- The value stored in the Point Index Store:
`{"data": value, "timestamp": value.get("timestamp", "unknown")}`. -/
structure IndexedRecord where
  data : SensorEvent
  timestamp : String
deriving DecidableEq, Repr

/-- One raw row of the `sensor_data` table:
`(sensor_id, temperature, humidity, pressure, recorded_at)`. -/
structure Row where
  sensorId : String
  temperature : Option Rat
  humidity : Option Rat
  pressure : Option Rat
  recordedAt : Option String
deriving DecidableEq, Repr

/-- RocksDB `db.put`: insert-or-overwrite, keeping the byte-lexicographic
key order that the iterator exposes. -/
def dbPut : List (String × IndexedRecord) → String → IndexedRecord →
    List (String × IndexedRecord)
  | [], k, v => [(k, v)]
  | (k', v') :: rest, k, v =>
    if k = k' then (k, v) :: rest
    else if pyLt k k' then (k, v) :: (k', v') :: rest
    else (k', v') :: dbPut rest k v

/-- RocksDB `db.get`: point lookup by key. -/
def dbGet : List (String × IndexedRecord) → String → Option IndexedRecord
  | [], _ => none
  | (k', v) :: rest, k => if k = k' then some v else dbGet rest k

/-- DuckDB `INSERT INTO sensor_data VALUES (...)`.  The table declares
`sensor_id UUID PRIMARY KEY`; DuckDB rejects an insert that duplicates an
existing `sensor_id` with a constraint error, otherwise the row is
appended. -/
def insertRow (rows : List Row) (r : Row) : Except String (List Row) :=
  if rows.any fun r0 => r0.sensorId = r.sensorId then
    .error "Constraint Error: duplicate key violates primary key constraint"
  else
    .ok (rows ++ [r])

/-- The two stores owned by the Streaming Index. -/
structure State where
  pointIndex : List (String × IndexedRecord)
  rows : List Row
deriving DecidableEq, Repr

def State.empty : State := ⟨[], []⟩

/-- The record built by `store_event`:
`{"data": value, "timestamp": value.get("timestamp", "unknown")}`. -/
def indexedOf (value : SensorEvent) : IndexedRecord :=
  { data := value, timestamp := value.recordedAt.getD "unknown" }

/-- `StreamingIndex.store_event`: build the IndexedRecord, `put` it into
RocksDB, then attempt the DuckDB insert.  In the source the `put` runs
first and a failing insert raises afterwards, so the point-index write
survives in both branches; no rollback, no retry. -/
def store_event (s : State) (key : String) (value : SensorEvent) :
    State × Except String Unit :=
  match insertRow s.rows
      { sensorId := key, temperature := value.temperature,
        humidity := value.humidity, pressure := value.pressure,
        recordedAt := value.recordedAt } with
  | .ok rows' => (⟨dbPut s.pointIndex key (indexedOf value), rows'⟩, .ok ())
  | .error e => (⟨dbPut s.pointIndex key (indexedOf value), s.rows⟩, .error e)

/-- Store a batch of events in order (each call as the ingestion loop
would issue it; a failed analytical insert does not stop the batch here —
this helper only sequences `store_event`'s state effect). -/
def storeAll (s : State) : List (String × SensorEvent) → State
  | [] => s
  | (k, e) :: rest => storeAll (store_event s k e).1 rest

/-- `StreamingIndex.query_events`: scan the whole point index in key
order, decode each record, keep those with
`record["timestamp"] >= timestamp_threshold` (Python string comparison).
Returns the result list and the (unchanged) stores. -/
def query_events (s : State) (threshold : String) :
    List IndexedRecord × State :=
  ((s.pointIndex.map Prod.snd).filter fun r => pyLe threshold r.timestamp, s)

/-- `date_trunc('minute', recorded_at)` on a fixed-width timestamp string
`YYYY-MM-DD HH:MM:SS`: keep the first 16 characters (up to the minute). -/
def truncMinute (t : Option String) : Option String :=
  t.map fun x => x.take 16

/-- One output row of the aggregate query. -/
structure AggregateRow where
  sensorId : String
  avgTemperature : Option Rat
  avgHumidity : Option Rat
  avgPressure : Option Rat
  timeBucket : Option String
deriving DecidableEq, Repr

/-- SQL `AVG` over a column of a group: nulls are skipped; an all-null
column averages to null, never zero. -/
def avgOpt (xs : List (Option Rat)) : Option Rat :=
  let vs := xs.filterMap id
  if vs.isEmpty then none else some (vs.sum / vs.length)

/-- The grouping keys `(sensor_id, date_trunc('minute', recorded_at))`
present in the table, in first-appearance order. -/
def groupKeys (rows : List Row) : List (String × Option String) :=
  rows.foldl
    (fun ks r =>
      let k := (r.sensorId, truncMinute r.recordedAt)
      if ks.contains k then ks else ks ++ [k])
    []

/-- `StreamingIndex.aggregate_metrics`: the grouped aggregate
`SELECT sensor_id, AVG(temperature), AVG(humidity), AVG(pressure),
date_trunc('minute', recorded_at) ... GROUP BY sensor_id, time_bucket`.
Returns the result and the (unchanged) stores. -/
def aggregate_metrics (s : State) : List AggregateRow × State :=
  (((groupKeys s.rows).map fun k =>
      let grp := s.rows.filter fun r =>
        (r.sensorId, truncMinute r.recordedAt) = k
      { sensorId := k.1
        avgTemperature := avgOpt (grp.map Row.temperature)
        avgHumidity := avgOpt (grp.map Row.humidity)
        avgPressure := avgOpt (grp.map Row.pressure)
        timeBucket := k.2 }),
   s)

/-- A raw Kafka message: a key and a value payload; `value = none` models
a payload on which `json.loads(x.decode('utf-8'))` raises. -/
structure RawMessage where
  key : String
  value : Option SensorEvent
deriving DecidableEq, Repr

/-- `consume_stream`: `for message in consumer: store_event(...)`.
There is no exception handler, so a deserializer error (malformed
message) or a store error propagates and terminates the loop, leaving
later messages unprocessed. -/
def consume_stream (s : State) : List RawMessage → State
  | [] => s
  | m :: rest =>
    match m.value with
    | none => s
    | some e =>
      match store_event s m.key e with
      | (s', .ok _) => consume_stream s' rest
      | (s', .error _) => s'

/-- `websocket_query`: accept the socket, run one full scan of the point
index and send each record as one message in scan order; the handler then
returns and the channel closes.  The result is the list of messages
pushed. -/
def websocket_query (s : State) : List IndexedRecord :=
  s.pointIndex.map Prod.snd

/-! Concrete events used in the witness and counterexample scenarios. -/

/-- A reading `{temp: 20}` recorded at second 05 of a minute. -/
def evA : SensorEvent := ⟨some 20, none, none, some "2024-01-01 10:00:05"⟩

/-- A reading `{temp: 22}` recorded at second 30 of the same minute. -/
def evB : SensorEvent := ⟨some 22, none, none, some "2024-01-01 10:00:30"⟩

/-- An event with no `"timestamp"` key (and no readings). -/
def evU : SensorEvent := ⟨none, none, none, none⟩

/-- A state already holding one analytical row (and one indexed record)
for sensor id `"s"`. -/
def sDup : State := (store_event State.empty "s" evA).1

/-!  ### Lemmas about the Point Index Store  -/

/-- A `get` right after a `put` of the same key returns the new value. -/
theorem dbGet_dbPut_self (m : List (String × IndexedRecord)) (k : String)
    (v : IndexedRecord) : dbGet (dbPut m k v) k = some v := by
  induction m with
  | nil => simp [dbPut, dbGet]
  | cons hd tl ih =>
    obtain ⟨k', v'⟩ := hd
    by_cases h : k = k'
    · subst h
      simp [dbPut, dbGet]
    · by_cases h2 : pyLt k k' = true
      · simp [dbPut, dbGet, h, h2]
      · simp [dbPut, dbGet, h, h2, ih]

/-- A `put` under one key does not change a `get` under another key. -/
theorem dbGet_dbPut_ne (m : List (String × IndexedRecord)) (k k0 : String)
    (v : IndexedRecord) (h : k ≠ k0) : dbGet (dbPut m k0 v) k = dbGet m k := by
  induction m with
  | nil => simp [dbPut, dbGet, h]
  | cons hd tl ih =>
    obtain ⟨k', v'⟩ := hd
    by_cases hk : k0 = k'
    · subst hk
      simp [dbPut, dbGet, h]
    · by_cases h2 : pyLt k0 k' = true
      · simp [dbPut, dbGet, hk, h2, h]
      · simp [dbPut, dbGet, hk, h2, ih]

/-- The freshly `put` pair is among the store's entries. -/
theorem self_mem_dbPut (m : List (String × IndexedRecord)) (k : String)
    (v : IndexedRecord) : (k, v) ∈ dbPut m k v := by
  induction m with
  | nil => simp [dbPut]
  | cons hd tl ih =>
    obtain ⟨k', v'⟩ := hd
    by_cases h : k = k'
    · simp [dbPut, h]
    · by_cases h2 : pyLt k k' = true
      · simp [dbPut, h, h2]
      · simp [dbPut, h, h2, ih]

/-- Every entry after a `put` is the new pair or an old entry. -/
theorem mem_dbPut_elim (m : List (String × IndexedRecord)) (k : String)
    (v : IndexedRecord) (a : String × IndexedRecord) (ha : a ∈ dbPut m k v) :
    a = (k, v) ∨ a ∈ m := by
  induction m with
  | nil =>
    simp [dbPut] at ha
    exact Or.inl ha
  | cons hd tl ih =>
    obtain ⟨k', v'⟩ := hd
    by_cases h : k = k'
    · simp [dbPut, h] at ha
      rcases ha with ha | ha
      · exact Or.inl (by simp [ha, h])
      · exact Or.inr (List.mem_cons_of_mem _ ha)
    · by_cases h2 : pyLt k k' = true
      · simp [dbPut, h, h2] at ha
        rcases ha with ha | ha | ha
        · exact Or.inl (by simp [ha])
        · exact Or.inr (by simp [ha])
        · exact Or.inr (List.mem_cons_of_mem _ ha)
      · simp [dbPut, h, h2] at ha
        rcases ha with ha | ha
        · exact Or.inr (by simp [ha])
        · rcases ih ha with h3 | h3
          · exact Or.inl h3
          · exact Or.inr (List.mem_cons_of_mem _ h3)

/-- Putting a fresh key is, up to store order, consing the new pair. -/
theorem dbPut_perm (m : List (String × IndexedRecord)) (k : String)
    (v : IndexedRecord) (h : ¬ k ∈ m.map Prod.fst) :
    List.Perm (dbPut m k v) ((k, v) :: m) := by
  induction m with
  | nil => simp [dbPut]
  | cons hd tl ih =>
    obtain ⟨k', v'⟩ := hd
    simp only [List.map_cons, List.mem_cons] at h
    push_neg at h
    obtain ⟨h1, h2⟩ := h
    by_cases hlt : pyLt k k' = true
    · simp [dbPut, h1, hlt]
    · have step : dbPut ((k', v') :: tl) k v = (k', v') :: dbPut tl k v := by
        simp [dbPut, h1, hlt]
      rw [step]
      exact (List.Perm.cons _ (ih h2)).trans (List.Perm.swap _ _ _)

/-!  ### Lemmas about `store_event` and batches  -/

/-- The point-index `put` happens before the analytical insert and is
never rolled back: both the `ok` and the `error` branch of `store_event`
leave the new record in the point index. -/
theorem store_event_pointIndex (s : State) (k : String) (e : SensorEvent) :
    (store_event s k e).1.pointIndex = dbPut s.pointIndex k (indexedOf e) := by
  unfold store_event
  split <;> rfl

/-- Batch storing folds `dbPut` over the point index, whatever the
analytical outcomes are. -/
theorem storeAll_pointIndex (l : List (String × SensorEvent)) (s : State) :
    (storeAll s l).pointIndex =
      l.foldl (fun acc kv => dbPut acc kv.1 (indexedOf kv.2)) s.pointIndex := by
  induction l generalizing s with
  | nil => rfl
  | cons hd tl ih =>
    obtain ⟨k, e⟩ := hd
    rw [storeAll, ih, List.foldl_cons, store_event_pointIndex]

/-- Storing keys other than `k` never changes the lookup of `k`. -/
theorem dbGet_storeAll_ne (l : List (String × SensorEvent)) (s : State)
    (k : String) (hl : ∀ kv ∈ l, kv.1 ≠ k) :
    dbGet (storeAll s l).pointIndex k = dbGet s.pointIndex k := by
  induction l generalizing s with
  | nil => rfl
  | cons hd tl ih =>
    obtain ⟨k', e⟩ := hd
    have hk : k' ≠ k := hl (k', e) (List.mem_cons_self _ _)
    rw [storeAll, ih _ fun kv h => hl kv (List.mem_cons_of_mem _ h),
      store_event_pointIndex, dbGet_dbPut_ne _ _ _ _ fun h => hk h.symm]

/-- Folding `dbPut` over pairwise-fresh keys yields, up to store order,
exactly the appended list of new entries. -/
theorem foldPut_perm (l : List (String × SensorEvent)) :
    ∀ (m : List (String × IndexedRecord)), (l.map Prod.fst).Nodup →
    (∀ k ∈ l.map Prod.fst, ¬ k ∈ m.map Prod.fst) →
    List.Perm (l.foldl (fun acc kv => dbPut acc kv.1 (indexedOf kv.2)) m)
      (m ++ l.map fun kv => (kv.1, indexedOf kv.2)) := by
  induction l with
  | nil =>
    intro m _ _
    simp
  | cons hd tl ih =>
    intro m h1 h2
    obtain ⟨k, e⟩ := hd
    simp only [List.map_cons, List.nodup_cons] at h1
    have hfresh : ¬ k ∈ m.map Prod.fst := h2 k (by simp)
    have h2' : ∀ k' ∈ tl.map Prod.fst, ¬ k' ∈ (dbPut m k (indexedOf e)).map Prod.fst := by
      intro k' hk' hmem
      simp only [List.mem_map] at hmem
      obtain ⟨a, ha, rfl⟩ := hmem
      rcases mem_dbPut_elim m k (indexedOf e) a ha with rfl | hma
      · exact h1.1 hk'
      · exact h2 a.1 (by simp [hk']) (List.mem_map_of_mem Prod.fst hma)
    rw [List.foldl_cons]
    refine (ih _ h1.2 h2').trans ?_
    refine (List.Perm.append_right _ (dbPut_perm m k (indexedOf e) hfresh)).trans ?_
    simpa using List.perm_middle.symm

/-- After storing a batch of pairwise-distinct keys from the empty state,
the point index holds, up to store order, exactly one entry per stored
pair. -/
theorem pointIndex_perm (l : List (String × SensorEvent))
    (hl : (l.map Prod.fst).Nodup) :
    List.Perm (storeAll State.empty l).pointIndex
      (l.map fun kv => (kv.1, indexedOf kv.2)) := by
  rw [storeAll_pointIndex]
  simpa using foldPut_perm l [] hl (by simp)

/-!  ### Lemmas about `query_events`  -/

/-- Membership in a query result: exactly the stored records whose
`timestamp` passes the string comparison against the threshold. -/
theorem mem_query_events (s : State) (t : String) (r : IndexedRecord) :
    r ∈ (query_events s t).1 ↔
      (∃ k, (k, r) ∈ s.pointIndex) ∧ pyLe t r.timestamp = true := by
  simp only [query_events, List.mem_filter, List.mem_map]
  constructor
  · rintro ⟨⟨⟨k, v⟩, hm, rfl⟩, hp⟩
    exact ⟨⟨k, hm⟩, hp⟩
  · rintro ⟨⟨k, hm⟩, hp⟩
    exact ⟨⟨(k, r), hm, rfl⟩, hp⟩

/-- The sentinel `"unknown"` compares `>=` (in Python's code-point order)
against any string that starts with a digit. -/
theorem pyLe_digit_unknown (t : String) (c : Char) (cs : List Char)
    (h : t.data = c :: cs) (h2 : c.toNat ≤ 57) : pyLe t "unknown" = true := by
  have hu : "unknown".data = 'u' :: ['n', 'k', 'n', 'o', 'w', 'n'] := rfl
  have h117 : Char.toNat 'u' = 117 := rfl
  have hc : c.toNat < Char.toNat 'u' := by omega
  unfold pyLe
  rw [h, hu]
  simp only [strLeAux]
  rw [if_pos hc]

/-!  ### Claim theorems  -/

/-- Claim C1: after `store_event k e1` then `store_event k e2`, a point
lookup of `k` returns the IndexedRecord built from `e2` (last-write-wins),
whatever state came before, whatever other keys are stored afterwards,
and even when the second call's analytical insert fails (the put precedes
the insert and is unconditional). -/
theorem store_event_last_write_wins (s : State) (k : String)
    (e1 e2 : SensorEvent) (l : List (String × SensorEvent))
    (hl : ∀ kv ∈ l, kv.1 ≠ k) :
    dbGet (storeAll (store_event (store_event s k e1).1 k e2).1 l).pointIndex k
      = some (indexedOf e2) := by
  rw [dbGet_storeAll_ne l _ k hl, store_event_pointIndex, dbGet_dbPut_self]

/-- Witness for C1: `"k"` stored twice (so the second analytical insert
fails on the primary key), then another key `"z"`; the lookup returns the
record of the second event. -/
theorem store_event_last_write_wins_witness :
    dbGet (storeAll (store_event (store_event State.empty "k" evA).1 "k" evB).1
      [("z", evU)]).pointIndex "k" = some (indexedOf evB) :=
  store_event_last_write_wins State.empty "k" evA evB [("z", evU)] (by decide)

/-- Claim C3: for a batch of records with pairwise-distinct keys stored in
any order, `query_events t` returns exactly those whose `timestamp`
satisfies `timestamp >= t` under string comparison (the right-hand side
mentions only membership in the batch, so any ingestion order gives the
same result set), and an empty result — not an error — when nothing
matches (including the empty batch). -/
theorem query_events_exact (l : List (String × SensorEvent)) (t : String)
    (hl : (l.map Prod.fst).Nodup) :
    (∀ r, r ∈ (query_events (storeAll State.empty l) t).1 ↔
        ∃ kv, kv ∈ l ∧ r = indexedOf kv.2 ∧
          pyLe t (indexedOf kv.2).timestamp = true)
    ∧ ((∀ kv ∈ l, pyLe t (indexedOf kv.2).timestamp = false) →
        (query_events (storeAll State.empty l) t).1 = []) := by
  have hmem : ∀ r, r ∈ (query_events (storeAll State.empty l) t).1 ↔
      ∃ kv, kv ∈ l ∧ r = indexedOf kv.2 ∧
        pyLe t (indexedOf kv.2).timestamp = true := by
    intro r
    rw [mem_query_events]
    constructor
    · rintro ⟨⟨k, hk⟩, hp⟩
      have := (pointIndex_perm l hl).mem_iff.mp hk
      simp only [List.mem_map] at this
      obtain ⟨kv, hkv, heq⟩ := this
      have hr : r = indexedOf kv.2 := congrArg Prod.snd heq.symm
      exact ⟨kv, hkv, hr, by rw [← hr]; exact hp⟩
    · rintro ⟨kv, hkv, rfl, hp⟩
      refine ⟨⟨kv.1, ?_⟩, hp⟩
      exact (pointIndex_perm l hl).mem_iff.mpr
        (List.mem_map_of_mem (fun kv => (kv.1, indexedOf kv.2)) hkv)
  refine ⟨hmem, fun hnone => ?_⟩
  rw [List.eq_nil_iff_forall_not_mem]
  intro r hr
  obtain ⟨kv, hkv, _, hp⟩ := (hmem r).mp hr
  rw [hnone kv hkv] at hp
  exact Bool.false_ne_true hp

/-- Witness for C3: one stored event without a timestamp; with threshold
`"2024"` the query returns it (its sentinel timestamp passes). -/
theorem query_events_exact_witness :
    indexedOf evU ∈ (query_events (storeAll State.empty [("a", evU)]) "2024").1 :=
  ((query_events_exact [("a", evU)] "2024" (by decide)).1 (indexedOf evU)).mpr
    ⟨("a", evU), by decide, rfl, by decide⟩

/-- Claim C4: `store_event` stores under `key` exactly the record
`{data: event, timestamp: event.recordedAt}` when the event carries the
time field, and `{data: event, timestamp: "unknown"}` when it is absent. -/
theorem store_event_builds_indexed_record (s : State) (k : String)
    (e : SensorEvent) :
    dbGet (store_event s k e).1.pointIndex k =
      some { data := e,
             timestamp := match e.recordedAt with
                          | some ts => ts
                          | none => "unknown" } := by
  rw [store_event_pointIndex, dbGet_dbPut_self]
  cases h : e.recordedAt <;> simp [indexedOf, h]

/-- Claim C7: when the analytical insert inside `store_event` fails, the
point-index write is not rolled back (the new record is present under
`key`), the analytical rows are exactly the old ones, and the failure is
the call's reported result. -/
theorem store_event_failure_frame (s : State) (k : String) (e : SensorEvent)
    (msg : String) (h : (store_event s k e).2 = .error msg) :
    (store_event s k e).1.pointIndex = dbPut s.pointIndex k (indexedOf e)
    ∧ dbGet (store_event s k e).1.pointIndex k = some (indexedOf e)
    ∧ (store_event s k e).1.rows = s.rows := by
  refine ⟨store_event_pointIndex s k e, ?_, ?_⟩
  · rw [store_event_pointIndex, dbGet_dbPut_self]
  · unfold store_event at h ⊢
    split at h
    · exact absurd h (by simp)
    · rfl

/-- Witness for C7: storing sensor id `"s"` into a state that already has
a row for `"s"` makes the insert fail; the point index still gets the new
record and the rows are unchanged. -/
theorem store_event_failure_frame_witness :
    (store_event sDup "s" evB).1.pointIndex = dbPut sDup.pointIndex "s" (indexedOf evB)
    ∧ dbGet (store_event sDup "s" evB).1.pointIndex "s" = some (indexedOf evB)
    ∧ (store_event sDup "s" evB).1.rows = sDup.rows :=
  store_event_failure_frame sDup "s" evB
    "Constraint Error: duplicate key violates primary key constraint" rfl

/-- Claim C8: a snapshot feed opened after storing `N` distinct keys (no
concurrent writes) pushes the point index's scan, one message per entry:
exactly `N` messages, which are — up to the store's scan order — exactly
the stored IndexedRecords; the handler then returns and the channel
closes. -/
theorem websocket_snapshot_complete (l : List (String × SensorEvent))
    (hl : (l.map Prod.fst).Nodup) :
    websocket_query (storeAll State.empty l)
        = (storeAll State.empty l).pointIndex.map Prod.snd
    ∧ (websocket_query (storeAll State.empty l)).length = l.length
    ∧ List.Perm (websocket_query (storeAll State.empty l))
        (l.map fun kv => indexedOf kv.2) := by
  have hperm := pointIndex_perm l hl
  refine ⟨rfl, ?_, ?_⟩
  · simp [websocket_query, hperm.length_eq]
  · have := hperm.map Prod.snd
    simpa [websocket_query, List.map_map, Function.comp] using this

/-- Witness for C8: two distinct keys stored; the feed pushes two
messages, the two stored records. -/
theorem websocket_snapshot_complete_witness :
    (websocket_query (storeAll State.empty [("b", evA), ("a", evB)])).length = 2 :=
  (websocket_snapshot_complete [("b", evA), ("a", evB)] (by decide)).2.1

/-- Claim C9: a record stored from an event lacking the time field gets
the sentinel timestamp `"unknown"`, and for every digit-initial threshold
(in particular every ISO-8601 timestamp) `query_events` includes it,
because `"unknown"` compares greater than any digit-initial string. -/
theorem query_events_includes_unknown (s : State) (k : String)
    (e : SensorEvent) (t : String) (c : Char) (cs : List Char)
    (he : e.recordedAt = none) (ht : t.data = c :: cs)
    (_hd1 : 48 ≤ c.toNat) (hd2 : c.toNat ≤ 57) :
    (indexedOf e).timestamp = "unknown"
    ∧ indexedOf e ∈ (query_events (store_event s k e).1 t).1 := by
  have hts : (indexedOf e).timestamp = "unknown" := by simp [indexedOf, he]
  refine ⟨hts, ?_⟩
  rw [mem_query_events]
  refine ⟨⟨k, ?_⟩, ?_⟩
  · rw [store_event_pointIndex]
    exact self_mem_dbPut _ _ _
  · rw [hts]
    exact pyLe_digit_unknown t c cs ht hd2

/-- Witness for C9: an event with no time field, threshold the ISO
timestamp `"2024-01-01T00:00:00"`: the stored record is returned. -/
theorem query_events_includes_unknown_witness :
    (indexedOf evU).timestamp = "unknown"
    ∧ indexedOf evU ∈
        (query_events (store_event State.empty "k" evU).1 "2024-01-01T00:00:00").1 :=
  query_events_includes_unknown State.empty "k" evU "2024-01-01T00:00:00"
    '2' "024-01-01T00:00:00".data rfl rfl (by decide) (by decide)

/-- Claim C10: `query_events` and `aggregate_metrics` are read-only: they
return the two stores exactly as they were (the source performs no `put`
and no INSERT in either). -/
theorem queries_are_read_only (s : State) (t : String) :
    (query_events s t).2 = s ∧ (aggregate_metrics s).2 = s :=
  ⟨rfl, rfl⟩

/-- Claim C2 (counter-evaluation): re-ingesting the same id does not
leave two raw rows — the second `store_event`'s analytical insert
violates the declared `sensor_id` primary key and fails, leaving a single
row, contrary to the claim that both calls succeed with duplicate rows. -/
theorem duplicate_id_reingestion_raises :
    (store_event State.empty "s" evA).2 = .ok ()
    ∧ (store_event (store_event State.empty "s" evA).1 "s" evB).2
        = .error "Constraint Error: duplicate key violates primary key constraint"
    ∧ (store_event (store_event State.empty "s" evA).1 "s" evB).1.rows.length = 1 :=
  ⟨rfl, rfl, rfl⟩

/-- Claim C5 (counter-evaluation): for sensor `"s"` with readings
`{temp: 20}` and `{temp: 22}` recorded in the same minute bucket, the
second ingest fails on the primary key, so the aggregate reports
`avgTemperature = 20` for the `("s", bucket)` group — not `21`. -/
theorem same_minute_average_diverges :
    truncMinute evA.recordedAt = truncMinute evB.recordedAt
    ∧ (store_event (store_event State.empty "s" evA).1 "s" evB).2
        = .error "Constraint Error: duplicate key violates primary key constraint"
    ∧ (aggregate_metrics (store_event (store_event State.empty "s" evA).1 "s" evB).1).1
        = [{ sensorId := "s", avgTemperature := some 20, avgHumidity := none,
             avgPressure := none, timeBucket := some "2024-01-01 10:00" }] := by
  refine ⟨rfl, rfl, ?_⟩
  have hrows : (store_event (store_event State.empty "s" evA).1 "s" evB).1.rows
      = [{ sensorId := "s", temperature := some 20, humidity := none,
           pressure := none, recordedAt := some "2024-01-01 10:00:05" }] := rfl
  have htake : ("2024-01-01 10:00:05").take 16 = "2024-01-01 10:00" := rfl
  simp only [aggregate_metrics, hrows]
  norm_num [groupKeys, truncMinute, avgOpt, List.filterMap_cons, htake]
  exact fun h => absurd h (Option.some_ne_none _)

/-- Claim C6 (counter-evaluation): a malformed first message makes the
deserializer raise inside the consumer iterator; with no handler in
`consume_stream` the loop dies, so the following valid message for key
`"k2"` is never stored and its point lookup stays empty — the loop does
not skip and continue. -/
theorem malformed_message_stops_loop :
    consume_stream State.empty [⟨"k1", none⟩, ⟨"k2", some evA⟩] = State.empty
    ∧ dbGet (consume_stream State.empty
        [⟨"k1", none⟩, ⟨"k2", some evA⟩]).pointIndex "k2" = none :=
  ⟨rfl, rfl⟩
